import Mathlib

/-!
A shallow embedding of the X-brain React/TypeScript client
(frontend/src/contexts/GraphContext.tsx, components/DocumentLoader.tsx,
components/GraphVisualization.tsx, components/ChatInterface.tsx and
services/api.ts).

Each React component's relevant state is a Lean structure, and each event
handler or effect is a pure Lean function from the old state (plus an
oracle value for the outcome of the network call it awaits) to the new
state together with the list of HTTP requests it issued.  JavaScript
library calls that the code treats as black boxes (Date parsing,
Math.cos, Math.sin) are abstracted as function parameters, and JavaScript
numbers are modelled as exact rationals.
-/

namespace XBrain

/-- Mirror of the Graph record of the api types module (metadata, which no
claim touches, is omitted). -/
structure Graph where
  graph_id : String
  name : String
  description : Option String := none
  created_at : String := ""
  node_count : Nat := 0
  edge_count : Nat := 0
deriving Repr, DecidableEq

/-- The HTTP requests the embedded handlers can issue, keyed by the
ApiService method used and the dynamic arguments that reach the URL or the
request body. -/
inductive NetRequest where
  | listGraphs
  | deleteGraphReq (graphId : String)
  | uploadDocument (filename graphId : String)
  | getVisualizationData (graphId : String)
  | sendChatMessage (message graphId sessionId : String)
deriving Repr, DecidableEq

/-- State held by GraphProvider in GraphContext.tsx. -/
structure GraphContextState where
  graphs : List Graph
  selectedGraph : Option Graph
  loading : Bool
  error : Option String
deriving Repr, DecidableEq

/-- Embedding of refreshGraphs in GraphContext.tsx.  The outcome argument
is the result of the awaited ApiService.listGraphs() call: on success the
list of graphs of the response body, on failure the thrown error. -/
def refreshGraphs (s : GraphContextState) (outcome : Except Unit (List Graph)) :
    GraphContextState × List NetRequest :=
  let s1 := { s with loading := true, error := none }
  match outcome with
  | Except.ok gs =>
      let s2 := { s1 with graphs := gs }
      let s3 := if 0 < gs.length ∧ s2.selectedGraph = none
                then { s2 with selectedGraph := gs.head? } else s2
      ({ s3 with loading := false }, [NetRequest.listGraphs])
  | Except.error _ =>
      ({ s1 with loading := false, error := some "Failed to load graphs" },
       [NetRequest.listGraphs])

/-- Embedding of selectGraph in GraphContext.tsx: look the id up in the
current list with Array.prototype.find and select the hit, if any. -/
def selectGraph (s : GraphContextState) (graphId : String) : GraphContextState :=
  match s.graphs.find? (fun g => g.graph_id == graphId) with
  | some g => { s with selectedGraph := some g }
  | none => s

/-- Embedding of the test selectedGraph?.graph_id === graphId used by
deleteGraph (optional chaining yields undefined for a null selection, and
undefined === graphId is false). -/
def selectedHasId (sel : Option Graph) (graphId : String) : Bool :=
  match sel with
  | some g => g.graph_id == graphId
  | none => false

/-- Embedding of deleteGraph in GraphContext.tsx.  The outcome argument is
the result of the awaited ApiService.deleteGraph call; on failure the
handler records an error and re-throws, leaving the list and the selection
unchanged. -/
def deleteGraph (s : GraphContextState) (graphId : String)
    (outcome : Except Unit Unit) : GraphContextState × List NetRequest :=
  match outcome with
  | Except.ok _ =>
      let newGraphs := s.graphs.filter (fun g => g.graph_id != graphId)
      let s2 := { s with graphs := newGraphs }
      let s3 := if selectedHasId s.selectedGraph graphId
                then { s2 with selectedGraph := newGraphs.head? } else s2
      (s3, [NetRequest.deleteGraphReq graphId])
  | Except.error _ =>
      ({ s with error := some "Failed to delete graph" },
       [NetRequest.deleteGraphReq graphId])

/-- Mirror of the DocumentResponse record of the api types module (the
fields no claim touches are omitted). -/
structure DocumentResponse where
  document_id : String
  filename : String
  status : String := ""
  uploaded_at : String := ""
deriving Repr, DecidableEq

/-- Mirror of the Document record of the api types module. -/
structure Document where
  id : String
  document_id : String
  filename : String
  status : String := ""
  uploaded_at : String := ""
deriving Repr, DecidableEq

/-- Embedding of the spread { ...response.data, id: response.data.document_id }
performed by handleUpload in DocumentLoader.tsx. -/
def toDocument (r : DocumentResponse) : Document :=
  { id := r.document_id, document_id := r.document_id, filename := r.filename,
    status := r.status, uploaded_at := r.uploaded_at }

/-- State held by DocumentLoader.tsx that the upload loop touches.  The
JavaScript Set of in-flight file ids is modelled as a Finset. -/
structure UploadState where
  documents : List Document
  uploadingFiles : Finset String
  error : Option String
  success : Option String
deriving DecidableEq

/-- One item of an upload batch: the file name, the per-file identifier
built from the name and Date.now(), and the oracle outcome of the awaited
apiService.uploadDocument call (on failure, the optional err.message). -/
structure UploadItem where
  filename : String
  fileId : String
  outcome : Except (Option String) DocumentResponse

/-- Error text produced by the catch branch of the upload loop. -/
def uploadErrorMessage (filename : String) (errMsg : Option String) : String :=
  "Failed to upload " ++ filename ++ ": " ++ errMsg.getD "Unknown error"

/-- Result of one iteration of the upload loop: the uploadingFiles set as
it stands while the request is in flight (after the add, before the
finally-delete), and the component state once the iteration finished. -/
structure UploadStep where
  duringRequest : Finset String
  after : UploadState

/-- Embedding of one iteration of the for-of loop of handleUpload in
DocumentLoader.tsx: add the file id to uploadingFiles, await the upload,
then either append the document and set the success banner or set the
error banner, and in the finally block delete the file id again. -/
def uploadOne (filename fileId : String)
    (outcome : Except (Option String) DocumentResponse)
    (s : UploadState) : UploadStep :=
  let uploading := insert fileId s.uploadingFiles
  let s1 := { s with uploadingFiles := uploading }
  let s2 :=
    match outcome with
    | Except.ok resp =>
        let documentData := toDocument resp
        { s1 with documents := s1.documents ++ [documentData],
                  success := some ("Successfully uploaded " ++ filename) }
    | Except.error m =>
        { s1 with error := some (uploadErrorMessage filename m) }
  ⟨uploading, { s2 with uploadingFiles := s2.uploadingFiles.erase fileId }⟩

/-- Embedding of the whole sequential for-of loop of handleUpload, also
collecting the one HTTP request each iteration issues. -/
def uploadBatch (graphId : String) (items : List UploadItem) (s : UploadState) :
    UploadState × List NetRequest :=
  match items with
  | [] => (s, [])
  | item :: rest =>
      let step := uploadOne item.filename item.fileId item.outcome s
      let r := uploadBatch graphId rest step.after
      (r.1, NetRequest.uploadDocument item.filename graphId :: r.2)

/-- Embedding of handleUpload in DocumentLoader.tsx: with no selected
graph it only sets an error and issues nothing, otherwise it runs the
upload loop against the selected graph. -/
def handleUpload (selectedGraph : Option Graph) (items : List UploadItem)
    (s : UploadState) : UploadState × List NetRequest :=
  match selectedGraph with
  | none => ({ s with error := some "Please select a graph first" }, [])
  | some g => uploadBatch g.graph_id items s

/-- View mode toggle of GraphVisualization.tsx. -/
inductive ViewMode where
  | graph
  | timeline
deriving Repr, DecidableEq

/-- Mirror of the node records rendered by GraphVisualization.tsx, with
the fields the component reads (id, name, node_type, created_at). -/
structure GraphNode where
  id : String
  name : String := ""
  node_type : String := ""
  created_at : String := ""
deriving Repr, DecidableEq

/-- Mirror of the edge records rendered by GraphVisualization.tsx, with
the fields the component reads. -/
structure GraphEdge where
  source_id : String
  target_id : String
  edge_type : String := ""
  weight : Option ℚ := none
deriving Repr, DecidableEq

/-- Mirror of the VisualizationData record of the api types module. -/
structure VisualizationData where
  nodes : List GraphNode
  edges : List GraphEdge
deriving Repr, DecidableEq

/-- State held by GraphVisualization.tsx that loadVisualizationData and
the render path touch. -/
structure VizState where
  data : Option VisualizationData
  loading : Bool
  error : Option String
  viewMode : ViewMode
  timeRange : ℚ × ℚ
  currentTime : ℚ
deriving Repr, DecidableEq

/-- Embedding of loadVisualizationData in GraphVisualization.tsx.  The
getTime parameter abstracts the JavaScript expression
new Date(str).getTime(), returning none where that expression is NaN; the
outcome argument is the result of the awaited
apiService.getVisualizationData call (on failure, the optional
err.message of a thrown Error). -/
def loadVisualizationData (getTime : String → Option ℚ)
    (selectedGraph : Option Graph)
    (outcome : Except (Option String) VisualizationData)
    (s : VizState) : VizState × List NetRequest :=
  match selectedGraph with
  | none => (s, [])
  | some g =>
    let s1 := { s with loading := true, error := none }
    match outcome with
    | Except.ok vizData =>
        let s2 := { s1 with data := some vizData }
        let s3 :=
          if s2.viewMode = ViewMode.timeline ∧ 0 < vizData.nodes.length then
            let timestamps := vizData.nodes.filterMap
              (fun n => getTime n.created_at)
            match timestamps.min?, timestamps.max? with
            | some minTime, some maxTime =>
                { s2 with timeRange := (minTime, maxTime),
                          currentTime := minTime }
            | _, _ => s2
          else s2
        ({ s3 with loading := false },
         [NetRequest.getVisualizationData g.graph_id])
    | Except.error m =>
        ({ s1 with loading := false,
                   error := some (m.getD "Failed to load visualization data") },
         [NetRequest.getVisualizationData g.graph_id])

/-- Embedding of the per-node timeline test of GraphVisualization.tsx:
new Date(node.created_at).getTime() <= currentTimeMs, which is false when
the date does not parse (NaN compares false). -/
def nodeTimeLE (getTime : String → Option ℚ) (t : ℚ) (n : GraphNode) : Bool :=
  match getTime n.created_at with
  | some v => decide (v ≤ t)
  | none => false

/-- Embedding of the data-filtering stage at the top of the render path of
GraphVisualization.tsx: in timeline mode keep the nodes whose creation
time is at most the scrub time and the edges whose two endpoint ids both
occur among the kept nodes; in graph mode hand the loaded data over
unchanged.  The returned pair is what the D3 selections are bound to. -/
def rendererData (getTime : String → Option ℚ) (viewMode : ViewMode)
    (currentTime : ℚ) (data : VisualizationData) :
    List GraphNode × List GraphEdge :=
  match viewMode with
  | ViewMode.timeline =>
      let filteredNodes := data.nodes.filter (nodeTimeLE getTime currentTime)
      let nodeIds := filteredNodes.map (fun n => n.id)
      let filteredEdges := data.edges.filter
        (fun e => nodeIds.contains e.source_id && nodeIds.contains e.target_id)
      (filteredNodes, filteredEdges)
  | ViewMode.graph => (data.nodes, data.edges)

/-- A node together with the x and y coordinates the circular layout
assigns to it before the force simulation starts. -/
structure PositionedNode where
  node : GraphNode
  x : ℚ
  y : ℚ
deriving Repr, DecidableEq

/-- Embedding of the circular branch of the layout switch in
GraphVisualization.tsx: radius = min(width, height) / 3, and node i of n
is moved to angle (i / n) * 2 * pi on the circle around the container
centre.  qcos, qsin and qpi abstract Math.cos, Math.sin and Math.PI. -/
def circularLayout (qcos qsin : ℚ → ℚ) (qpi : ℚ) (width height : ℚ)
    (nodes : List GraphNode) : List PositionedNode :=
  let radius := min width height / 3
  nodes.mapIdx (fun i node =>
    let angle := ((i : ℚ) / (nodes.length : ℚ)) * 2 * qpi
    ⟨node, width / 2 + radius * qcos angle, height / 2 + radius * qsin angle⟩)

/-- The two timeline-playback state variables of GraphVisualization.tsx. -/
structure PlaybackState where
  currentTime : ℚ
  isPlaying : Bool
deriving Repr, DecidableEq

/-- Embedding of one 200 ms interval tick of the timeline animation effect
in GraphVisualization.tsx: while playing, advance the scrub time by a
hundredth of the time range, stopping at exactly the range end as soon as
the next value would reach or pass it.  When not playing the interval does
not exist, so the state is unchanged. -/
def playbackTick (timeRange : ℚ × ℚ) (s : PlaybackState) : PlaybackState :=
  if s.isPlaying then
    let next := s.currentTime + (timeRange.2 - timeRange.1) / 100
    if timeRange.2 ≤ next then ⟨timeRange.2, false⟩
    else ⟨next, true⟩
  else s

/-- Iterated playback ticks. -/
def playbackIter (timeRange : ℚ × ℚ) : Nat → PlaybackState → PlaybackState
  | 0, s => s
  | n + 1, s => playbackTick timeRange (playbackIter timeRange n s)

/-- Message roles of ChatInterface.tsx. -/
inductive ChatRole where
  | user
  | assistant
deriving Repr, DecidableEq

/-- Mirror of the ChatMessage record of the api types module (sources and
context_nodes, which no claim touches, are omitted). -/
structure ChatMessage where
  id : String
  role : ChatRole
  content : String
  timestamp : String
  session_id : String
deriving Repr, DecidableEq

/-- Mirror of the ChatResponse record of the api types module, reduced to
the response text the component stores. -/
structure ChatResponse where
  response : String
deriving Repr, DecidableEq

/-- State held by ChatInterface.tsx that handleSendMessage touches. -/
structure ChatState where
  messages : List ChatMessage
  input : String
  isLoading : Bool
  error : Option String
  sessionId : String
deriving Repr, DecidableEq

/-- Embedding of handleSendMessage in ChatInterface.tsx.  The trim
parameter abstracts the JavaScript builtin String.prototype.trim (it
yields the empty string exactly on whitespace-only input); nowMs and
nowIso stand for Date.now() and new Date().toISOString() at the moment of
the call; the outcome argument is the result of the awaited
apiService.sendChatMessage call. -/
def handleSendMessage (trim : String → String) (selectedGraph : Option Graph)
    (nowMs : Nat) (nowIso : String)
    (outcome : Except (Option String) ChatResponse)
    (s : ChatState) : ChatState × List NetRequest :=
  if trim s.input = "" ∨ selectedGraph = none ∨ s.isLoading = true then (s, [])
  else
    match selectedGraph with
    | none => (s, [])
    | some g =>
      let userMessage : ChatMessage :=
        ⟨"msg_" ++ toString nowMs, ChatRole.user, trim s.input, nowIso,
         s.sessionId⟩
      let s1 := { s with messages := s.messages ++ [userMessage], input := "",
                         isLoading := true, error := none }
      let req := NetRequest.sendChatMessage userMessage.content g.graph_id
        s.sessionId
      match outcome with
      | Except.ok resp =>
          let assistantMessage : ChatMessage :=
            ⟨"msg_" ++ toString nowMs ++ "_assistant", ChatRole.assistant,
             resp.response, nowIso, s.sessionId⟩
          ({ s1 with messages := s1.messages ++ [assistantMessage],
                     isLoading := false }, [req])
      | Except.error m =>
          ({ s1 with isLoading := false,
                     error := some (m.getD "Failed to send message") }, [req])

/-- HTTP method of a request of the api service. -/
inductive HttpMethod where
  | get
  | post
  | delete
deriving Repr, DecidableEq

/-- A request as the axios client of services/api.ts issues it: the
method plus the URL path below the /api base URL, split at the slashes
into segments (the path string /graphs/list is the segment list
[graphs, list]).  Query parameters and bodies do not contribute to the
path. -/
structure ApiRequest where
  method : HttpMethod
  path : List String
deriving Repr, DecidableEq

namespace ApiService

/-- GET /graphs/list, from ApiService.listGraphs. -/
def listGraphs : ApiRequest := ⟨HttpMethod.get, ["graphs", "list"]⟩

/-- POST /graphs/create, from ApiService.createGraph. -/
def createGraph : ApiRequest := ⟨HttpMethod.post, ["graphs", "create"]⟩

/-- GET /graphs/id, from ApiService.getGraph. -/
def getGraph (graphId : String) : ApiRequest :=
  ⟨HttpMethod.get, ["graphs", graphId]⟩

/-- DELETE /graphs/id, from ApiService.deleteGraph. -/
def deleteGraph (graphId : String) : ApiRequest :=
  ⟨HttpMethod.delete, ["graphs", graphId]⟩

/-- GET /graphs/id/stats, from ApiService.getGraphStats. -/
def getGraphStats (graphId : String) : ApiRequest :=
  ⟨HttpMethod.get, ["graphs", graphId, "stats"]⟩

/-- POST /documents/upload, from ApiService.uploadDocument. -/
def uploadDocument : ApiRequest := ⟨HttpMethod.post, ["documents", "upload"]⟩

/-- GET /documents/status/id, from ApiService.getProcessingStatus. -/
def getProcessingStatus (documentId : String) : ApiRequest :=
  ⟨HttpMethod.get, ["documents", "status", documentId]⟩

/-- GET /documents/list/id, from ApiService.listDocuments. -/
def listDocuments (graphId : String) : ApiRequest :=
  ⟨HttpMethod.get, ["documents", "list", graphId]⟩

/-- DELETE /documents/id, from ApiService.deleteDocument. -/
def deleteDocument (documentId : String) : ApiRequest :=
  ⟨HttpMethod.delete, ["documents", documentId]⟩

/-- POST /chat/message, from ApiService.sendChatMessage. -/
def sendChatMessage : ApiRequest := ⟨HttpMethod.post, ["chat", "message"]⟩

/-- GET /chat/sessions, from ApiService.getChatSessions. -/
def getChatSessions : ApiRequest := ⟨HttpMethod.get, ["chat", "sessions"]⟩

/-- GET /chat/sessions/id, from ApiService.getChatSession. -/
def getChatSession (sessionId : String) : ApiRequest :=
  ⟨HttpMethod.get, ["chat", "sessions", sessionId]⟩

/-- DELETE /chat/sessions/id, from ApiService.deleteChatSession. -/
def deleteChatSession (sessionId : String) : ApiRequest :=
  ⟨HttpMethod.delete, ["chat", "sessions", sessionId]⟩

/-- POST /chat/sessions/id/clear, from ApiService.clearChatSession. -/
def clearChatSession (sessionId : String) : ApiRequest :=
  ⟨HttpMethod.post, ["chat", "sessions", sessionId, "clear"]⟩

/-- GET /chat/sessions/id/export, from ApiService.exportChatSession. -/
def exportChatSession (sessionId : String) : ApiRequest :=
  ⟨HttpMethod.get, ["chat", "sessions", sessionId, "export"]⟩

/-- POST /chat/search, from ApiService.searchGraph. -/
def searchGraph : ApiRequest := ⟨HttpMethod.post, ["chat", "search"]⟩

/-- POST /visualizations/graph-data, from ApiService.getVisualizationData. -/
def getVisualizationData : ApiRequest :=
  ⟨HttpMethod.post, ["visualizations", "graph-data"]⟩

/-- POST /visualizations/timeline, from ApiService.getTimelineData. -/
def getTimelineData : ApiRequest :=
  ⟨HttpMethod.post, ["visualizations", "timeline"]⟩

/-- GET /visualizations/subgraph/id, from ApiService.getSubgraph. -/
def getSubgraph (graphId : String) : ApiRequest :=
  ⟨HttpMethod.get, ["visualizations", "subgraph", graphId]⟩

/-- GET /health, from ApiService.healthCheck. -/
def healthCheck : ApiRequest := ⟨HttpMethod.get, ["health"]⟩

end ApiService

/-- Test for the four route groups the spec lists: graph CRUD under
/graphs, document upload/status under /documents, chat under /chat, and
visualization data/timeline/subgraph under /visualizations. -/
def inSpecifiedFamilies (r : ApiRequest) : Bool :=
  match r.path.head? with
  | some seg =>
      seg == "graphs" || seg == "documents" || seg == "chat"
        || seg == "visualizations"
  | none => false

/-- Array.prototype.find characterisation: either no element satisfies the
test and find? returns none, or the list splits around the first hit. -/
theorem find?_split (p : Graph → Bool) :
    ∀ l : List Graph,
      (l.find? p = none ∧ ∀ x ∈ l, p x = false)
      ∨ (∃ l₁ g l₂, l = l₁ ++ g :: l₂ ∧ p g = true ∧ (∀ x ∈ l₁, p x = false)
          ∧ l.find? p = some g) := by
  intro l
  induction l with
  | nil => exact Or.inl ⟨rfl, by simp⟩
  | cons a t ih =>
    cases hp : p a with
    | true =>
      exact Or.inr ⟨[], a, t, rfl, hp, by simp, by simp [List.find?_cons, hp]⟩
    | false =>
      rcases ih with ⟨h1, h2⟩ | ⟨l₁, g, l₂, hl, hg, hl₁, hfind⟩
      · refine Or.inl ⟨by simp [List.find?_cons, hp, h1], ?_⟩
        intro x hx
        rcases List.mem_cons.mp hx with rfl | hx
        · exact hp
        · exact h2 x hx
      · refine Or.inr ⟨a :: l₁, g, l₂, by simp [hl], hg, ?_,
          by simp [List.find?_cons, hp, hfind]⟩
        intro x hx
        rcases List.mem_cons.mp hx with rfl | hx
        · exact hp
        · exact hl₁ x hx

/-- Claim C10: selectGraph sets the selected graph to the first member of
the current graph list whose graph_id equals the requested id when one
exists, leaves the whole state unchanged when no member matches, and hence
can only ever select a graph that is present in the list. -/
theorem selectGraph_spec (s : GraphContextState) (gid : String) :
    (((∀ x ∈ s.graphs, x.graph_id ≠ gid) ∧ selectGraph s gid = s)
      ∨ (∃ l₁ g l₂, s.graphs = l₁ ++ g :: l₂ ∧ g.graph_id = gid
          ∧ (∀ x ∈ l₁, x.graph_id ≠ gid)
          ∧ selectGraph s gid = { s with selectedGraph := some g }))
    ∧ ((selectGraph s gid).selectedGraph = s.selectedGraph
        ∨ ∃ g ∈ s.graphs, (selectGraph s gid).selectedGraph = some g) := by
  rcases find?_split (fun g => g.graph_id == gid) s.graphs with
    ⟨h1, h2⟩ | ⟨l₁, g, l₂, hl, hg, hl₁, hfind⟩
  · have hs : selectGraph s gid = s := by
      unfold selectGraph
      rw [h1]
    refine ⟨Or.inl ⟨?_, hs⟩, Or.inl (by rw [hs])⟩
    intro x hx
    simpa using h2 x hx
  · have hs : selectGraph s gid = { s with selectedGraph := some g } := by
      unfold selectGraph
      rw [hfind]
    have hgmem : g ∈ s.graphs := by
      rw [hl]; exact List.mem_append_right _ (List.mem_cons_self g l₂)
    refine ⟨Or.inr ⟨l₁, g, l₂, hl, by simpa using hg, ?_, hs⟩,
      Or.inr ⟨g, hgmem, by rw [hs]⟩⟩
    intro x hx
    simpa using hl₁ x hx

/-- Claim C8: on a successful deleteGraph the new list is the old list
with exactly the graphs carrying the deleted id removed; when the deleted
id was the selected one the selection moves to the head of the remaining
list (or null when it is empty), and otherwise the selection is
unchanged. -/
theorem deleteGraph_spec (s : GraphContextState) (gid : String) :
    (∀ x : Graph,
        x ∈ (deleteGraph s gid (Except.ok ())).1.graphs
          ↔ x ∈ s.graphs ∧ x.graph_id ≠ gid)
    ∧ (deleteGraph s gid (Except.ok ())).1.selectedGraph
        = (if selectedHasId s.selectedGraph gid
           then (deleteGraph s gid (Except.ok ())).1.graphs.head?
           else s.selectedGraph) := by
  constructor
  · intro x
    simp [deleteGraph]
    cases h : selectedHasId s.selectedGraph gid <;> simp [h, List.mem_filter]
  · simp only [deleteGraph]
    cases h : selectedHasId s.selectedGraph gid <;> simp [h]

theorem uploadOne_uploadingFiles (filename fileId : String)
    (outcome : Except (Option String) DocumentResponse) (s : UploadState) :
    (uploadOne filename fileId outcome s).after.uploadingFiles
      = (insert fileId s.uploadingFiles).erase fileId := by
  cases outcome <;> rfl

theorem uploadBatch_uploadingFiles (graphId : String) :
    ∀ (items : List UploadItem) (s : UploadState),
      (uploadBatch graphId items s).1.uploadingFiles
        = items.foldl (fun S it => S.erase it.fileId) s.uploadingFiles := by
  intro items
  induction items with
  | nil => intro s; rfl
  | cons item rest ih =>
    intro s
    show (uploadBatch graphId rest _).1.uploadingFiles = _
    rw [ih]
    simp [uploadOne_uploadingFiles, Finset.erase_insert_eq_erase]

theorem mem_foldl_erase :
    ∀ (items : List UploadItem) (S : Finset String) (x : String),
      (x ∈ items.foldl (fun S it => S.erase it.fileId) S)
        ↔ x ∈ S ∧ ∀ it ∈ items, x ≠ it.fileId := by
  intro items
  induction items with
  | nil => intro S x; simp
  | cons item rest ih =>
    intro S x
    simp only [List.foldl_cons, ih, Finset.mem_erase, List.mem_cons]
    constructor
    · rintro ⟨⟨hne, hS⟩, hrest⟩
      exact ⟨hS, fun it hit => by rcases hit with rfl | hit
                                  · exact hne
                                  · exact hrest it hit⟩
    · rintro ⟨hS, hall⟩
      exact ⟨⟨hall item (Or.inl rfl), hS⟩,
        fun it hit => hall it (Or.inr hit)⟩

/-- Claim C5: each upload adds its per-file id to uploadingFiles before
the request and removes it when the request completes, on the success and
the failure branch alike, without touching the other entries; after the
batch finishes the set holds none of the batch ids (and equals the
initial set when the batch ids were fresh), and the error a failing
request records depends only on that request. -/
theorem uploadingFiles_lifecycle (filename fileId : String)
    (outcome : Except (Option String) DocumentResponse) (s : UploadState)
    (graphId : String) (items : List UploadItem) (s₀ : UploadState) :
    ((uploadOne filename fileId outcome s).duringRequest
        = insert fileId s.uploadingFiles)
    ∧ ((uploadOne filename fileId outcome s).after.uploadingFiles
        = (insert fileId s.uploadingFiles).erase fileId)
    ∧ (fileId ∉ s.uploadingFiles →
        (uploadOne filename fileId outcome s).after.uploadingFiles
          = s.uploadingFiles)
    ∧ (∀ x, x ≠ fileId →
        ((x ∈ (uploadOne filename fileId outcome s).duringRequest
            ↔ x ∈ s.uploadingFiles)
          ∧ (x ∈ (uploadOne filename fileId outcome s).after.uploadingFiles
            ↔ x ∈ s.uploadingFiles)))
    ∧ (∀ it ∈ items,
        it.fileId ∉ (uploadBatch graphId items s₀).1.uploadingFiles)
    ∧ ((∀ it ∈ items, it.fileId ∉ s₀.uploadingFiles) →
        (uploadBatch graphId items s₀).1.uploadingFiles = s₀.uploadingFiles)
    ∧ (∀ m, (uploadOne filename fileId (Except.error m) s).after.error
        = some (uploadErrorMessage filename m))
    ∧ (∀ r, (uploadOne filename fileId (Except.ok r) s).after.error
        = s.error) := by
  refine ⟨?_, uploadOne_uploadingFiles .., ?_, ?_, ?_, ?_, fun m => rfl, fun r => rfl⟩
  · cases outcome <;> rfl
  · intro h
    rw [uploadOne_uploadingFiles, Finset.erase_insert h]
  · intro x hx
    rw [uploadOne_uploadingFiles]
    constructor
    · show x ∈ insert fileId s.uploadingFiles ↔ _
      simp [Finset.mem_insert, hx]
    · simp [Finset.mem_erase, Finset.mem_insert, hx]
  · intro it hit
    rw [uploadBatch_uploadingFiles, mem_foldl_erase]
    rintro ⟨-, hall⟩
    exact hall it hit rfl
  · intro hfresh
    rw [uploadBatch_uploadingFiles]
    ext x
    rw [mem_foldl_erase]
    constructor
    · exact fun h => h.1
    · intro hx
      refine ⟨hx, fun it hit => ?_⟩
      rintro rfl
      exact hfresh it hit hx

/-- Witness for claim C5 at a concrete batch of two files, one of which
fails, against an initially empty uploadingFiles set. -/
theorem uploadingFiles_lifecycle_witness :
    ((uploadOne "a.txt" "a.txt-1" (Except.error none)
        ⟨[], ∅, none, none⟩).after.uploadingFiles = (∅ : Finset String))
    ∧ ((uploadBatch "g1"
          [⟨"a.txt", "a.txt-1", Except.error none⟩,
           ⟨"b.txt", "b.txt-2", Except.ok ⟨"d1", "b.txt", "", ""⟩⟩]
          ⟨[], ∅, none, none⟩).1.uploadingFiles = (∅ : Finset String))
    ∧ ((uploadOne "a.txt" "a.txt-1" (Except.error none)
        ⟨[], ∅, none, none⟩).after.error
          = some "Failed to upload a.txt: Unknown error") := by
  have h := uploadingFiles_lifecycle "a.txt" "a.txt-1" (Except.error none)
    ⟨[], ∅, none, none⟩ "g1"
    [⟨"a.txt", "a.txt-1", Except.error none⟩,
     ⟨"b.txt", "b.txt-2", Except.ok ⟨"d1", "b.txt", "", ""⟩⟩]
    ⟨[], ∅, none, none⟩
  refine ⟨h.2.2.1 (by simp), h.2.2.2.2.2.1 ?_, ?_⟩
  · intro it hit
    simp
  · have := h.2.2.2.2.2.2.1 none
    simpa using this

theorem nodeTimeLE_iff (getTime : String → Option ℚ) (t : ℚ) (n : GraphNode) :
    nodeTimeLE getTime t n = true
      ↔ ∃ v, getTime n.created_at = some v ∧ v ≤ t := by
  cases h : getTime n.created_at <;> simp [nodeTimeLE, h]

/-- Claim C2: in timeline mode the renderer is handed exactly the nodes
whose created_at parses to a time at most the scrub time, and exactly the
edges whose source and target ids both occur among those nodes, so no
rendered edge has a missing endpoint. -/
theorem timeline_rendererData_spec (getTime : String → Option ℚ) (t : ℚ)
    (data : VisualizationData) :
    (∀ n, n ∈ (rendererData getTime ViewMode.timeline t data).1
        ↔ n ∈ data.nodes ∧ ∃ v, getTime n.created_at = some v ∧ v ≤ t)
    ∧ (∀ e, e ∈ (rendererData getTime ViewMode.timeline t data).2
        ↔ e ∈ data.edges
          ∧ (∃ n ∈ (rendererData getTime ViewMode.timeline t data).1,
              n.id = e.source_id)
          ∧ (∃ n ∈ (rendererData getTime ViewMode.timeline t data).1,
              n.id = e.target_id)) := by
  constructor
  · intro n
    simp [rendererData, List.mem_filter, nodeTimeLE_iff]
  · intro e
    simp [rendererData, List.mem_filter, Bool.and_eq_true, List.contains,
      List.elem_iff, List.mem_map]

theorem getElem?_mapIdx :
    ∀ (l : List GraphNode) (f : Nat → GraphNode → PositionedNode) (i : Nat),
      (l.mapIdx f)[i]? = (l[i]?).map (f i) := by
  intro l
  induction l with
  | nil => intro f i; simp
  | cons a t ih =>
    intro f i
    rw [List.mapIdx_cons]
    cases i with
    | zero => simp
    | succ j =>
      rw [List.getElem?_cons_succ, List.getElem?_cons_succ, ih]

/-- Claim C3: the circular layout keeps every node and, before the
simulation starts, places node i of n at the container centre displaced
by radius min(width, height) / 3 at angle 2 pi i / n. -/
theorem circularLayout_spec (qcos qsin : ℚ → ℚ) (qpi width height : ℚ)
    (nodes : List GraphNode) :
    (circularLayout qcos qsin qpi width height nodes).length = nodes.length
    ∧ ∀ i : Nat,
        (circularLayout qcos qsin qpi width height nodes)[i]?
          = (nodes[i]?).map (fun node =>
              ⟨node,
               width / 2 + (min width height / 3)
                 * qcos (2 * qpi * i / nodes.length),
               height / 2 + (min width height / 3)
                 * qsin (2 * qpi * i / nodes.length)⟩) := by
  constructor
  · simp [circularLayout, List.length_mapIdx]
  · intro i
    unfold circularLayout
    rw [getElem?_mapIdx]
    cases h : nodes[i]? with
    | none => rfl
    | some node =>
      have ha : ((i : ℚ) / (nodes.length : ℚ)) * 2 * qpi
          = 2 * qpi * (i : ℚ) / (nodes.length : ℚ) := by ring
      simp only [Option.map_some']
      rw [ha]

theorem playbackIter_cases (t0 t1 cur : ℚ) :
    ∀ k : Nat,
      ((playbackIter (t0, t1) k ⟨cur, true⟩
          = ⟨cur + (k : ℚ) * ((t1 - t0) / 100), true⟩)
        ∧ (k = 0 ∨ cur + (k : ℚ) * ((t1 - t0) / 100) < t1))
      ∨ playbackIter (t0, t1) k ⟨cur, true⟩ = ⟨t1, false⟩ := by
  intro k
  induction k with
  | zero => exact Or.inl ⟨by simp [playbackIter], Or.inl rfl⟩
  | succ n ih =>
    rcases ih with ⟨heq, -⟩ | heq
    · by_cases hstop :
        t1 ≤ cur + (n : ℚ) * ((t1 - t0) / 100) + (t1 - t0) / 100
      · right
        simp [playbackIter, heq, playbackTick, hstop]
      · left
        constructor
        · simp only [playbackIter]
          rw [heq]
          simp only [playbackTick, if_true]
          rw [if_neg hstop]
          have : cur + (n : ℚ) * ((t1 - t0) / 100) + (t1 - t0) / 100
              = cur + ((n : ℚ) + 1) * ((t1 - t0) / 100) := by ring
          rw [this]
          push_cast
          rfl
        · right
          push_cast
          linarith [lt_of_not_le hstop]
    · right
      simp [playbackIter, heq, playbackTick]

/-- Claim C4: while playing, a tick advances the scrub time by a
hundredth of the time range; the scrub time never passes the range end;
as soon as the next step would reach or pass the end, the time is set to
exactly the end and playing stops; and from any start inside a
non-degenerate range, playback has stopped at the range end after at most
one hundred ticks. -/
theorem playback_spec (t0 t1 : ℚ) :
    (∀ c : ℚ, c + (t1 - t0) / 100 < t1 →
        playbackTick (t0, t1) ⟨c, true⟩ = ⟨c + (t1 - t0) / 100, true⟩)
    ∧ (∀ c : ℚ, t1 ≤ c + (t1 - t0) / 100 →
        playbackTick (t0, t1) ⟨c, true⟩ = ⟨t1, false⟩)
    ∧ (∀ s : PlaybackState, s.currentTime ≤ t1 →
        (playbackTick (t0, t1) s).currentTime ≤ t1)
    ∧ (t0 < t1 → ∀ c : ℚ, t0 ≤ c →
        playbackIter (t0, t1) 100 ⟨c, true⟩ = ⟨t1, false⟩) := by
  refine ⟨?_, ?_, ?_, ?_⟩
  · intro c h
    simp [playbackTick, not_le.mpr h]
  · intro c h
    simp [playbackTick, h]
  · intro s h
    cases hp : s.isPlaying
    · simpa [playbackTick, hp] using h
    · simp only [playbackTick, hp, if_true]
      by_cases hc : t1 ≤ s.currentTime + (t1 - t0) / 100
      · simp [hc]
      · simp only [if_neg hc]
        exact le_of_lt (lt_of_not_le hc)
  · intro hlt c hc
    rcases playbackIter_cases t0 t1 c 100 with ⟨heq, h0 | h0⟩ | heq
    · exact absurd h0 (by norm_num)
    · exfalso
      push_cast at h0
      linarith
    · exact heq

/-- Witness for claim C4 at the concrete range 0 to 100 with the scrub
starting at 0. -/
theorem playback_spec_witness :
    playbackTick ((0 : ℚ), (100 : ℚ)) ⟨0, true⟩ = ⟨1, true⟩
    ∧ playbackTick ((0 : ℚ), (100 : ℚ)) ⟨99.5, true⟩ = ⟨100, false⟩
    ∧ playbackIter ((0 : ℚ), (100 : ℚ)) 100 ⟨0, true⟩ = ⟨100, false⟩ := by
  have h := playback_spec 0 100
  refine ⟨?_, ?_, h.2.2.2 (by norm_num) 0 le_rfl⟩
  · have := h.1 0 (by norm_num)
    simpa using this
  · have := h.2.1 99.5 (by norm_num)
    simpa using this

/-- Claim C9: send in the chat interface with blank input, no selected
graph, or a request already in flight issues no network request and
leaves the whole component state, in particular the message list, the
input field, the session id and the error state, unchanged. -/
theorem handleSendMessage_noop (trim : String → String)
    (selectedGraph : Option Graph) (nowMs : Nat)
    (nowIso : String) (outcome : Except (Option String) ChatResponse)
    (s : ChatState)
    (h : trim s.input = "" ∨ selectedGraph = none ∨ s.isLoading = true) :
    handleSendMessage trim selectedGraph nowMs nowIso outcome s = (s, []) := by
  unfold handleSendMessage
  rw [if_pos h]

/-- Witness for claim C9: whitespace-only input (trimming to the empty
string) with a graph selected and no request in flight. -/
theorem handleSendMessage_noop_witness :
    handleSendMessage (fun _ => "") (some ⟨"g1", "Graph 1", none, "", 0, 0⟩) 0 ""
        (Except.ok ⟨"ok"⟩) ⟨[], "   ", false, none, "sess"⟩
      = (⟨[], "   ", false, none, "sess"⟩, []) :=
  handleSendMessage_noop _ _ _ _ _ _ (Or.inl rfl)

/-- Claim C6: whenever one of the embedded handlers issued a network
request, the state it leaves behind has its loading flag false, on the
success branch and on the failure branch alike (for refreshGraphs, which
always issues its request, unconditionally). -/
theorem loadingFlag_reset :
    (∀ (trim : String → String) (sel : Option Graph) (nowMs : Nat)
        (nowIso : String)
        (outcome : Except (Option String) ChatResponse) (s : ChatState),
        (handleSendMessage trim sel nowMs nowIso outcome s).2 ≠ [] →
        (handleSendMessage trim sel nowMs nowIso outcome s).1.isLoading = false)
    ∧ (∀ (getTime : String → Option ℚ) (sel : Option Graph)
        (outcome : Except (Option String) VisualizationData) (s : VizState),
        (loadVisualizationData getTime sel outcome s).2 ≠ [] →
        (loadVisualizationData getTime sel outcome s).1.loading = false)
    ∧ (∀ (s : GraphContextState) (outcome : Except Unit (List Graph)),
        (refreshGraphs s outcome).1.loading = false) := by
  refine ⟨?_, ?_, ?_⟩
  · intro trim sel nowMs nowIso outcome s hne
    unfold handleSendMessage at hne ⊢
    by_cases hg : trim s.input = "" ∨ sel = none ∨ s.isLoading = true
    · rw [if_pos hg] at hne
      exact absurd rfl hne
    · rw [if_neg hg] at hne ⊢
      cases sel with
      | none => exact absurd rfl hne
      | some g => cases outcome <;> rfl
  · intro getTime sel outcome s hne
    cases sel with
    | none => exact absurd rfl hne
    | some g => cases outcome <;> rfl
  · intro s outcome
    cases outcome <;> rfl

/-- Witness for claim C6: a concrete failing request through each of the
three handlers. -/
theorem loadingFlag_reset_witness :
    (handleSendMessage (fun x => x) (some ⟨"g1", "Graph 1", none, "", 0, 0⟩) 0 ""
        (Except.error none) ⟨[], "hi", false, none, "sess"⟩).1.isLoading = false
    ∧ (loadVisualizationData (fun _ => none)
        (some ⟨"g1", "Graph 1", none, "", 0, 0⟩) (Except.error none)
        ⟨none, false, none, ViewMode.graph, (0, 0), 0⟩).1.loading = false
    ∧ (refreshGraphs ⟨[], none, true, none⟩
        (Except.error ())).1.loading = false :=
  ⟨loadingFlag_reset.1 _ _ 0 "" _ _ (by decide),
   loadingFlag_reset.2.1 _ _ _ _ (by decide),
   loadingFlag_reset.2.2 _ _⟩

theorem uploadBatch_requests (graphId : String) :
    ∀ (items : List UploadItem) (s : UploadState),
      (uploadBatch graphId items s).2
        = items.map (fun it => NetRequest.uploadDocument it.filename graphId) := by
  intro items
  induction items with
  | nil => intro s; rfl
  | cons item rest ih =>
    intro s
    show (_ :: (uploadBatch graphId rest _).2) = _
    rw [ih]
    rfl

/-- Claim C1: each failing network call of refreshGraphs,
loadVisualizationData and the upload loop is caught (the embedded
handlers are total functions into states, not into exceptions), records
its error message in the component error state, and each of these
operations issues exactly one request per call (one per file for the
upload loop) whatever the outcome, so no retry is ever performed. -/
theorem networkErrors_spec :
    (∀ s : GraphContextState,
        (refreshGraphs s (Except.error ())).1.error
          = some "Failed to load graphs")
    ∧ (∀ (s : GraphContextState) (outcome : Except Unit (List Graph)),
        (refreshGraphs s outcome).2 = [NetRequest.listGraphs])
    ∧ (∀ (getTime : String → Option ℚ) (g : Graph) (m : Option String)
        (s : VizState),
        (loadVisualizationData getTime (some g) (Except.error m) s).1.error
          = some (m.getD "Failed to load visualization data"))
    ∧ (∀ (getTime : String → Option ℚ) (g : Graph)
        (outcome : Except (Option String) VisualizationData) (s : VizState),
        (loadVisualizationData getTime (some g) outcome s).2
          = [NetRequest.getVisualizationData g.graph_id])
    ∧ (∀ (filename fileId : String) (m : Option String) (s : UploadState),
        (uploadOne filename fileId (Except.error m) s).after.error
          = some (uploadErrorMessage filename m))
    ∧ (∀ (graphId : String) (items : List UploadItem) (s : UploadState),
        (uploadBatch graphId items s).2
          = items.map (fun it => NetRequest.uploadDocument it.filename graphId)) := by
  refine ⟨fun s => rfl, fun s outcome => ?_, fun getTime g m s => rfl,
    fun getTime g outcome s => ?_, fun filename fileId m s => rfl,
    uploadBatch_requests⟩
  · cases outcome <;> rfl
  · cases outcome <;> rfl

/-- Claim C7 counterexample: the healthCheck method of ApiService
requests the path /health, which lies in none of the four route groups
the spec lists. -/
theorem apiService_healthCheck_outside :
    inSpecifiedFamilies ApiService.healthCheck = false := by decide

/-- Claim C7 as amended: every method of ApiService other than
healthCheck (which requests the health route /health) produces a request
whose path falls under one of the four listed route groups, for all
argument values. -/
theorem apiService_routes (gid did sid : String) :
    inSpecifiedFamilies ApiService.listGraphs = true
    ∧ inSpecifiedFamilies ApiService.createGraph = true
    ∧ inSpecifiedFamilies (ApiService.getGraph gid) = true
    ∧ inSpecifiedFamilies (ApiService.deleteGraph gid) = true
    ∧ inSpecifiedFamilies (ApiService.getGraphStats gid) = true
    ∧ inSpecifiedFamilies ApiService.uploadDocument = true
    ∧ inSpecifiedFamilies (ApiService.getProcessingStatus did) = true
    ∧ inSpecifiedFamilies (ApiService.listDocuments gid) = true
    ∧ inSpecifiedFamilies (ApiService.deleteDocument did) = true
    ∧ inSpecifiedFamilies ApiService.sendChatMessage = true
    ∧ inSpecifiedFamilies ApiService.getChatSessions = true
    ∧ inSpecifiedFamilies (ApiService.getChatSession sid) = true
    ∧ inSpecifiedFamilies (ApiService.deleteChatSession sid) = true
    ∧ inSpecifiedFamilies (ApiService.clearChatSession sid) = true
    ∧ inSpecifiedFamilies (ApiService.exportChatSession sid) = true
    ∧ inSpecifiedFamilies ApiService.searchGraph = true
    ∧ inSpecifiedFamilies ApiService.getVisualizationData = true
    ∧ inSpecifiedFamilies ApiService.getTimelineData = true
    ∧ inSpecifiedFamilies (ApiService.getSubgraph gid) = true :=
  ⟨rfl, rfl, rfl, rfl, rfl, rfl, rfl, rfl, rfl, rfl, rfl, rfl, rfl, rfl, rfl,
   rfl, rfl, rfl, rfl⟩

end XBrain
